import Mathlib

/-!
Formal model of the Yumaris chatbot frontend (`static/js/chat.js`).

The source is a browser chat client.  We shallow-embed the parts the
specification talks about: the price normalizer (`extractCurrentPrice`,
`calculateDiscount`, `formatPriceDisplay`), the product card derivation
(`getProductDetails`, the description truncation in `displayProducts`),
the response dispatcher (`handleResponseData`), the two-pass linkifier
(`formatMessageWithLinks`), the attachment staging (`handleFileUpload`),
and the submit/response flow (`sendMessage`, `sendMessageWithAttachment`,
`sendFileToBackend`) as a trace of effects over an explicit client state.

JavaScript numbers are modelled as rationals; `NaN` (which arises only
from parsing, never from a JSON payload) is modelled as `Option.none`.
DOM effects are modelled as events; callback-driven asynchrony is
modelled by the order in which the browser actually runs the callbacks.

Rational arithmetic inside definitions is written with `Rat.divInt` on
numerators/denominators rather than with `+ - * /` (whose `Rat` instances
are `@[irreducible]` and so do not evaluate under `decide`); each such
definition comes with a proved bridge lemma restating it in ordinary
field notation, so no rearrangement has to be taken on trust.
-/

/-- `q * 100`, in a form that evaluates in the kernel. -/
def mul100 (q : ℚ) : ℚ := Rat.divInt (q.num * 100) q.den

theorem ratFloor_eq_intFloor (q : ℚ) : Rat.floor q = ⌊q⌋ :=
  (Rat.floor_def' q).trans Rat.floor_def.symm

theorem mul100_eq (q : ℚ) : mul100 q = q * 100 := by
  have hd : (q.den : ℚ) ≠ 0 := Nat.cast_ne_zero.mpr q.den_nz
  have key : (q.num : ℚ) = q * q.den := (div_eq_iff hd).mp (Rat.num_div_den q)
  rw [mul100, Rat.divInt_eq_div]
  push_cast
  rw [key, div_eq_iff hd]
  ring

/-- JavaScript `Math.round`: round half toward positive infinity,
`⌊q + 1/2⌋` (see `jsRound_eq`); written on numerator and denominator so
that it evaluates in the kernel. -/
def jsRound (q : ℚ) : ℤ := Rat.floor (Rat.divInt (2 * q.num + q.den) (2 * q.den))

theorem jsRound_eq (q : ℚ) : jsRound q = ⌊q + 1 / 2⌋ := by
  have hd : (q.den : ℚ) ≠ 0 := Nat.cast_ne_zero.mpr q.den_nz
  have h2d : ((2 : ℚ) * q.den) ≠ 0 := mul_ne_zero two_ne_zero hd
  have key : (q.num : ℚ) = q * q.den := (div_eq_iff hd).mp (Rat.num_div_den q)
  rw [jsRound, ratFloor_eq_intFloor, Rat.divInt_eq_div]
  congr 1
  push_cast
  rw [key, div_eq_iff h2d]
  ring

/-- A JavaScript value that is either a number or a string: the two shapes
in which backend price fields arrive (`typeof x === 'string' | 'number'`). -/
inductive JSVal where
  | num (q : ℚ)
  | str (s : String)
  deriving DecidableEq

/-- JavaScript truthiness of a `JSVal`: `0` and the empty string are falsy. -/
def jsTruthy : JSVal → Bool
  | .num q => q != 0
  | .str s => s != ""

/-- `priceString.replace(/[^0-9.]/g, '')`: keep only digits and dots. -/
def stripNonNumeric (s : String) : String :=
  ⟨s.data.filter (fun c => c.isDigit || c == '.')⟩

/-- Value of a list of decimal digit characters. -/
def digitsVal (cs : List Char) : ℕ :=
  cs.foldl (fun n c => 10 * n + (c.toNat - 48)) 0

/-- JavaScript `parseFloat` restricted to strings whose characters are all
digits or dots — the only shape the source applies it to, since every string
is first stripped by `replace(/[^0-9.]/g, '')`.  `parseFloat` reads a leading
`digits ('.' digits)?` prefix and yields NaN (here `none`) when that prefix
contains no digit; the value `intPart + fracPart / 10 ^ |fracPart|` is built
with `Rat.divInt` (see `parseFloatStripped_eq`). -/
def parseFloatStripped (s : String) : Option ℚ :=
  let intPart := s.data.takeWhile Char.isDigit
  let rest := s.data.dropWhile Char.isDigit
  let fracPart :=
    match rest with
    | '.' :: tail => tail.takeWhile Char.isDigit
    | _ => []
  if intPart.isEmpty && fracPart.isEmpty then none
  else some (Rat.divInt (digitsVal intPart * 10 ^ fracPart.length + digitsVal fracPart) (10 ^ fracPart.length))

theorem divInt_decimal (i f k : ℕ) :
    Rat.divInt (i * 10 ^ k + f) (10 ^ k) = (i : ℚ) + (f : ℚ) / 10 ^ k := by
  have h10 : ((10 : ℚ) ^ k) ≠ 0 := pow_ne_zero _ (by norm_num)
  rw [Rat.divInt_eq_div]
  push_cast
  field_simp

/-- The numeric value the source obtains from a price input:
`typeof x === 'string' ? parseFloat(x.replace(/[^0-9.]/g, '')) : parseFloat(x)`
(`parseFloat` of a finite number is the number itself). -/
def toNumericValue : JSVal → Option ℚ
  | .num q => some q
  | .str s => parseFloatStripped (stripNonNumeric s)

/-- `(1 - current / original) * 100`, in a form that evaluates in the
kernel; `discountRatio_eq` restates it in field notation. -/
def discountRatio (current original : ℚ) : ℚ :=
  Rat.divInt (100 * (current.den * original.num - current.num * original.den))
    (current.den * original.num)

theorem discountRatio_eq (c o : ℚ) (ho : o ≠ 0) :
    discountRatio c o = (1 - c / o) * 100 := by
  have hcd : (c.den : ℚ) ≠ 0 := Nat.cast_ne_zero.mpr c.den_nz
  have hod : (o.den : ℚ) ≠ 0 := Nat.cast_ne_zero.mpr o.den_nz
  have hon : (o.num : ℚ) ≠ 0 := by
    exact_mod_cast Rat.num_ne_zero.mpr ho
  have kc : (c.num : ℚ) = c * c.den := (div_eq_iff hcd).mp (Rat.num_div_den c)
  have ko : (o.num : ℚ) = o * o.den := (div_eq_iff hod).mp (Rat.num_div_den o)
  rw [discountRatio, Rat.divInt_eq_div]
  push_cast
  rw [kc, ko, div_eq_iff (by rw [← ko] at *; exact mul_ne_zero hcd hon)]
  field_simp
  rw [kc, ko]
  ring

/-- `calculateDiscount(currentPrice, originalPrice)` from `chat.js`.
Both guards (`original > 0 && current < original`) are false on NaN
(JS comparisons with NaN are false), so any `none` value yields 0. -/
def calculateDiscount (currentPrice originalPrice : JSVal) : ℤ :=
  match toNumericValue currentPrice, toNumericValue originalPrice with
  | some current, some original =>
      if 0 < original ∧ current < original then
        jsRound (discountRatio current original)
      else 0
  | _, _ => 0

/-- Under the guard, `calculateDiscount` is the source formula
`Math.round((1 - current / original) * 100)`. -/
theorem calculateDiscount_formula (cp op : JSVal) (c o : ℚ)
    (hc : toNumericValue cp = some c) (ho : toNumericValue op = some o)
    (h1 : 0 < o) (h2 : c < o) :
    calculateDiscount cp op = ⌊(1 - c / o) * 100 + 1 / 2⌋ := by
  simp only [calculateDiscount, hc, ho]
  rw [if_pos ⟨h1, h2⟩, jsRound_eq, discountRatio_eq c o (ne_of_gt h1)]

/-- Render `n` hundredths as a fixed two-decimal string (`12.05`-style). -/
def toFixed2Nat (n : ℕ) : String :=
  toString (n / 100) ++ "." ++ (if n % 100 < 10 then "0" ++ toString (n % 100) else toString (n % 100))

/-- JavaScript `Number.prototype.toFixed(2)`: the sign is split off and the
magnitude is rounded to the nearest hundredth, ties away from zero. -/
def jsToFixed2 (q : ℚ) : String :=
  if q < 0 then "-" ++ toFixed2Nat (Int.toNat (jsRound (mul100 (-q))))
  else toFixed2Nat (Int.toNat (jsRound (mul100 q)))

/-- `extractCurrentPrice(priceString)` from `chat.js`.  For a string it strips
every character that is not a digit or dot and calls `parseFloat(...).toFixed(2)`;
`NaN.toFixed(2)` is the string `"NaN"`.  The source's final `return "0.00"`
branch is reachable only for inputs that are neither string nor number, which
`JSVal` cannot represent. -/
def extractCurrentPrice (priceString : JSVal) : String :=
  match priceString with
  | .str s =>
      match parseFloatStripped (stripNonNumeric s) with
      | some q => jsToFixed2 q
      | none => "NaN"
  | .num q => jsToFixed2 q

example : calculateDiscount (JSVal.num 80) (JSVal.num 100) = 20 := by decide
example : calculateDiscount (JSVal.str "$80") (JSVal.str "$100") = 20 := by decide
example : calculateDiscount (JSVal.num (-50)) (JSVal.num 100) = 150 := by decide
example : extractCurrentPrice (JSVal.str "abc") = "NaN" := by decide
example : extractCurrentPrice (JSVal.str "$1,234.5") = "1234.50" := by decide
example : extractCurrentPrice (JSVal.num 80) = "80.00" := by decide
example : extractCurrentPrice (JSVal.num (-1)) = "-1.00" := by decide

/-- The structured content of the price area produced by
`formatPriceDisplay(product)`: either the plain badge holding the raw
`price` field, or the sale display with the raw `price`, the computed
percent-off, and the struck-through original-price text. -/
inductive PriceView where
  | plain (badge : JSVal)
  | discounted (badge : JSVal) (discountPercent : ℤ) (strikeout : String)
  deriving DecidableEq

/-- The struck-through text: the raw string when `original_price` is a
string, else `` `$${parseFloat(original_price).toFixed(2)}` ``. -/
def strikeoutText : JSVal → String
  | .str s => s
  | .num q => "$" ++ jsToFixed2 q

/-- `formatPriceDisplay(product)` from `chat.js`, acting on the `price`
field and the optional `original_price` field.  The sale branch is taken
when `product.original_price && product.original_price !== product.price`
(truthy and strictly different). -/
def formatPriceDisplay (price : JSVal) (original_price : Option JSVal) : PriceView :=
  match original_price with
  | none => .plain price
  | some op =>
      if jsTruthy op ∧ op ≠ price then
        .discounted price (calculateDiscount price op) (strikeoutText op)
      else .plain price

/-- A backend product record.  Optional fields are the ones the source
reads defensively; `rating` is numeric per the data model. -/
structure Product where
  pid : String
  name : String
  description : String
  price : JSVal
  original_price : Option JSVal
  in_stock : String
  image_url : Option String
  category : Option String
  model : Option String
  brand : Option String
  rating : Option ℚ
  warranty : Option String
  deriving DecidableEq

/-- One rendered detail line of the product card. -/
inductive DetailLine where
  | category (text : String)
  | model (text : String)
  | brand (text : String)
  | rating (stars : String) (value : ℚ)
  | warranty (text : String)
  deriving DecidableEq

/-- `'★'.repeat(Math.floor(rating)) + '☆'.repeat(5 - Math.floor(rating))`.
(`String.prototype.repeat` throws on a negative count; for ratings in
`[0, 5]` — the data-model range — the `Nat` arithmetic below agrees with
the source.) -/
def starString (r : ℚ) : String :=
  ⟨List.replicate (Rat.floor r).toNat '★' ++ List.replicate (5 - (Rat.floor r).toNat) '☆'⟩

/-- `getProductDetails(product)` from `chat.js`: detail lines for whichever
of category, model, brand, rating, warranty are truthy, in that order.
(The source returns a "No additional details available" div when every
field is skipped; that corresponds to the empty list here.) -/
def getProductDetails (p : Product) : List DetailLine :=
  (match p.category with
    | some c => if c = "" then [] else [DetailLine.category c]
    | none => [])
  ++ (match p.model with
    | some m => if m = "" then [] else [DetailLine.model m]
    | none => [])
  ++ (match p.brand with
    | some b => if b = "" then [] else [DetailLine.brand b]
    | none => [])
  ++ (match p.rating with
    | some r => if r = 0 then [] else [DetailLine.rating (starString r) r]
    | none => [])
  ++ (match p.warranty with
    | some w => if w = "" then [] else [DetailLine.warranty w]
    | none => [])

/-- `product.description.substring(0, 100)` plus `'...'` exactly when the
description is longer than 100 characters (from the card template in
`displayProducts`). -/
def truncateDescription (s : String) : String :=
  ⟨s.data.take 100⟩ ++ (if 100 < s.data.length then "..." else "")

/-- The display-ready card data `displayProducts` derives per product. -/
structure ProductCardView where
  imageUrl : String
  priceLabel : String
  priceView : PriceView
  truncatedDescription : String
  detailLines : List DetailLine
  inStockBadgeSuccess : Bool
  deriving DecidableEq

/-- The per-product derivation inside `displayProducts(products)`:
image fallback (`product.image_url || placeholder`), price view, price
label `` `$${extractCurrentPrice(product.price)}` ``, truncated
description, detail lines, and the stock-badge colour test
`product.in_stock === 'In Stock'`. -/
def presentProduct (p : Product) : ProductCardView :=
  { imageUrl :=
      match p.image_url with
      | some u => if u = "" then "https://via.placeholder.com/150x150?text=No+Image" else u
      | none => "https://via.placeholder.com/150x150?text=No+Image"
    priceLabel := "$" ++ extractCurrentPrice p.price
    priceView := formatPriceDisplay p.price p.original_price
    truncatedDescription := truncateDescription p.description
    detailLines := getProductDetails p
    inStockBadgeSuccess := p.in_stock == "In Stock" }

example :
    formatPriceDisplay (JSVal.str "$80") (some (JSVal.str "$100")) =
      PriceView.discounted (JSVal.str "$80") 20 "$100" := by decide
example : formatPriceDisplay (JSVal.num 80) (some (JSVal.num 0)) = PriceView.plain (JSVal.num 80) := by decide
example : starString (Rat.divInt 7 2) = "★★★☆☆" := by decide

/-! ### The two-pass linkifier `formatMessageWithLinks` -/

/-- The apostrophe character (U+0027). -/
def aposChar : Char := Char.ofNat 39

/-- A character matched by the regex class `["']`. -/
def isQuoteChar (c : Char) : Bool := c == '"' || c == aposChar

/-- Case-insensitive "starts with" for a lowercase pattern, the way the
`i` flag treats ASCII. -/
def ciLeads : List Char → List Char → Bool
  | [], _ => true
  | _ :: _, [] => false
  | p :: ps, c :: cs => p == c.toLower && ciLeads ps cs

/-- Exact "starts with" on character lists. -/
def startsSeq : List Char → List Char → Bool
  | [], _ => true
  | _ :: _, [] => false
  | a :: as, b :: bs => a == b && startsSeq as bs

/-- Substring occurrence on character lists. -/
def hasSeq (needle : List Char) : List Char → Bool
  | [] => startsSeq needle []
  | c :: t => startsSeq needle (c :: t) || hasSeq needle t

/-- The fixed product-keyword vocabulary of the quote pass:
`/phone|camera|laptop|headphone|speaker|watch|tablet|TV|monitor|keyboard|mouse|book/i`. -/
def keywordList : List (List Char) :=
  ["phone", "camera", "laptop", "headphone", "speaker", "watch",
   "tablet", "tv", "monitor", "keyboard", "mouse", "book"].map String.data

/-- `p2.match(/phone|.../i)` is non-null: some keyword occurs
case-insensitively in the content. -/
def hasKeyword (content : List Char) : Bool :=
  keywordList.any fun kw => hasSeq kw (content.map Char.toLower)

/-- Uppercase hexadecimal digit. -/
def hexDigitChar (n : ℕ) : Char := if n < 10 then Char.ofNat (48 + n) else Char.ofNat (55 + n)

/-- UTF-8 bytes of a code point. -/
def utf8Bytes (n : ℕ) : List ℕ :=
  if n < 0x80 then [n]
  else if n < 0x800 then [0xC0 + n / 0x40, 0x80 + n % 0x40]
  else if n < 0x10000 then [0xE0 + n / 0x1000, 0x80 + n / 0x40 % 0x40, 0x80 + n % 0x40]
  else [0xF0 + n / 0x40000, 0x80 + n / 0x1000 % 0x40, 0x80 + n / 0x40 % 0x40, 0x80 + n % 0x40]

/-- Characters `encodeURIComponent` leaves unescaped. -/
def isUnreservedURIChar (c : Char) : Bool :=
  c.isAlphanum || c == '-' || c == '_' || c == '.' || c == '!' || c == '~' ||
    c == '*' || c == aposChar || c == '(' || c == ')'

/-- `encodeURIComponent`: percent-encode every UTF-8 byte of every
reserved character, uppercase hex. -/
def encodeURIComponent (cs : List Char) : List Char :=
  cs.foldr
    (fun c acc =>
      (if isUnreservedURIChar c then [c]
       else (utf8Bytes c.toNat).foldr
         (fun b bacc => '%' :: hexDigitChar (b / 16) :: hexDigitChar (b % 16) :: bacc) []) ++ acc)
    []

/-- `<a href="https://www.amazon.com/s?k=` -/
def linkHead : List Char := String.data "<a href=\"https://www.amazon.com/s?k="

/-- `" target="_blank" class="product-link">` -/
def linkMid : List Char := String.data "\" target=\"_blank\" class=\"product-link\">"

/-- `</a>` -/
def linkTail : List Char := String.data "</a>"

/-- The inserted anchor markup: search link for `query`, display `display`. -/
def wrapLink (query display : List Char) : List Char :=
  linkHead ++ encodeURIComponent query ++ linkMid ++ display ++ linkTail

/-- Pass 1: `message.replace(/(["'])([^"']+?)(["'])/g, ...)`.  Left-to-right
global scan; a match is a quote, a shortest nonempty run of non-quote
characters, and a quote; matched content is wrapped iff it contains a
keyword; scanning resumes after the closing quote.  Fuel (≥ list length)
only discharges termination: every step consumes at least one character. -/
def quotePass : ℕ → List Char → List Char
  | 0, s => s
  | _ + 1, [] => []
  | fuel + 1, c :: rest =>
      if isQuoteChar c then
        let content := rest.takeWhile (fun x => !isQuoteChar x)
        match rest.dropWhile (fun x => !isQuoteChar x) with
        | d :: rest2 =>
            if content.isEmpty then c :: quotePass fuel rest
            else if hasKeyword content then
              c :: (wrapLink content content ++ (d :: quotePass fuel rest2))
            else c :: (content ++ (d :: quotePass fuel rest2))
        | [] => c :: quotePass fuel rest
      else c :: quotePass fuel rest

/-- The regex class `\w` (ASCII word character). -/
def wordChar (c : Char) : Bool := c.isAlphanum || c == '_'

/-- The regex class `\s` (common JavaScript whitespace). -/
def jsSpace (c : Char) : Bool :=
  c == ' ' || c == '\t' || c == '\n' || c == '\r' ||
    c.toNat == 11 || c.toNat == 12 || c.toNat == 160 || c.toNat == 0xFEFF

/-- Word-character test at a possibly-absent position (for `\b`). -/
def isWordO : Option Char → Bool
  | some c => wordChar c
  | none => false

/-- `String.prototype.trim()`. -/
def jsTrimList (cs : List Char) : List Char :=
  ((cs.dropWhile jsSpace).reverse.dropWhile jsSpace).reverse

/-- `String.prototype.trim()` on strings. -/
def jsTrim (s : String) : String := ⟨jsTrimList s.data⟩

/-- Try one literal suffix alternative (lowercase `pat`, e.g. `" product"`)
at the head of `s`, requiring the trailing `\b`; returns the matched
characters (original case) and the remainder. -/
def suffixAt (pat : List Char) (s : List Char) : Option (List Char × List Char) :=
  if ciLeads pat s && !isWordO (s.drop pat.length).head? then
    some (s.take pat.length, s.drop pat.length)
  else none

/-- Group 3 `( product| device| gadget| item)`, alternatives in order. -/
def trySuffix (s : List Char) : Option (List Char × List Char) :=
  (suffixAt (String.data " product") s).orElse fun _ =>
    (suffixAt (String.data " device") s).orElse fun _ =>
      (suffixAt (String.data " gadget") s).orElse fun _ =>
        suffixAt (String.data " item") s

/-- Lazy group 2 `([\w\s]+?)` followed by group 3: grow the captured run
one character at a time (shortest first), trying the suffix alternatives
after each growth step — the regex backtracking order. -/
def g2Scan (g2rev : List Char) : List Char → Option (List Char × List Char × List Char)
  | [] => none
  | c :: t =>
      if wordChar c || jsSpace c then
        match trySuffix t with
        | some (sfx, rest) => some ((c :: g2rev).reverse, sfx, rest)
        | none => g2Scan (c :: g2rev) t
      else none

/-- Try one article alternative (group 1 `(the |a |an )?`). -/
def articleAt (pat : List Char) (s : List Char) : Option (List Char × List Char) :=
  if ciLeads pat s then some (s.take pat.length, s.drop pat.length) else none

/-- One match attempt of `(the |a |an )?([\w\s]+?)( product| device| gadget| item)\b`
at the head of `s` (the leading `\b` is checked by the caller): article
alternatives first (greedy `?`), then the lazy body, then the suffix.
Returns `(article, body, suffix, rest)`. -/
def matchNounPhrase (s : List Char) : Option (List Char × List Char × List Char × List Char) :=
  let withArticle (artPat : List Char) :
      Option (List Char × List Char × List Char × List Char) :=
    match articleAt artPat s with
    | some (art, rest1) =>
        match g2Scan [] rest1 with
        | some (g2, sfx, rest) => some (art, g2, sfx, rest)
        | none => none
    | none => none
  (withArticle (String.data "the ")).orElse fun _ =>
    (withArticle (String.data "a ")).orElse fun _ =>
      (withArticle (String.data "an ")).orElse fun _ =>
        match g2Scan [] s with
        | some (g2, sfx, rest) => some ([], g2, sfx, rest)
        | none => none

/-- Pass 2: `.replace(/\b(the |a |an )?([\w\s]+?)( product| device| gadget| item)\b/gi, ...)`.
`prev` is the character before the current position (for `\b`).  A matched
noun phrase longer than 3 characters is wrapped as a link (article kept
outside, query trimmed); otherwise the match is kept verbatim.  Scanning
resumes after the match, whose last character becomes the new `prev`. -/
def nounPass : ℕ → Option Char → List Char → List Char
  | 0, _, s => s
  | _ + 1, _, [] => []
  | fuel + 1, prev, c :: t =>
      if isWordO prev != wordChar c then
        match matchNounPhrase (c :: t) with
        | some (art, g2, sfx, rest) =>
            (if 3 < g2.length then art ++ wrapLink (jsTrimList g2) g2 ++ sfx
             else art ++ g2 ++ sfx) ++ nounPass fuel (art ++ g2 ++ sfx).getLast? rest
        | none => c :: nounPass fuel (some c) t
      else c :: nounPass fuel (some c) t

/-- `formatMessageWithLinks(message)` from `chat.js`: the quote pass, then
the generic product-noun pass applied to its output. -/
def formatMessageWithLinks (message : String) : String :=
  let afterQuotes := quotePass message.data.length message.data
  ⟨nounPass afterQuotes.length none afterQuotes⟩

example : formatMessageWithLinks "hello there friend" = "hello there friend" := by decide
example :
    formatMessageWithLinks "a \"nice phone\"" =
      "a \"<a href=\"https://www.amazon.com/s?k=nice%20phone\" target=\"_blank\" class=\"product-link\">nice phone</a>\"" := by
  decide

/-! ### Client state, events, and the submit/response flow -/

/-- An attached file as the client sees it: `file.name` and `file.type`. -/
structure UploadFile where
  name : String
  mimeType : String
  deriving DecidableEq

/-- An order reference in a backend reply (only ever logged). -/
structure OrderRef where
  info : String
  deriving DecidableEq

/-- The optional `data` object of a backend reply. -/
structure ResponseData where
  products : Option (List Product)
  product : Option Product
  order : Option OrderRef
  deriving DecidableEq

/-- A parsed backend reply `{message, data?}`. -/
structure BotReply where
  message : String
  data : Option ResponseData
  deriving DecidableEq

/-- How the in-flight request settles: a parsed 2xx JSON reply, or the
rejection path (non-ok HTTP status or transport failure — both throw into
the same `.catch`). -/
inductive Settlement where
  | success (reply : BotReply)
  | failure
  deriving DecidableEq

/-- An observable effect of the chat client. -/
inductive Event where
  | userMessage (text : String) (withImage : Bool)
  | botMessage (text : String)
  | showTyping
  | removeTyping
  | request (endpoint : String) (message : String) (sessionId : String) (filePayload : Option UploadFile)
  | consoleError
  | logOrder (o : OrderRef)
  | renderCarousel (ps : List Product)
  | hideCarousel
  | setInput (text : String)
  | setAttachment (f : Option UploadFile)
  | setFileInput (text : String)
  | hidePreviews
  deriving DecidableEq

/-- The mutable client state: draft input, staged attachment, file-input
element value, preview visibility, number of typing indicators in the DOM
(`removeTypingIndicator` removes at most one), transcript, carousel. -/
structure ChatState where
  userInput : String
  currentAttachment : Option UploadFile
  fileInputValue : String
  previewShown : Bool
  filePreviewContainerShown : Bool
  typingCount : ℕ
  transcript : List (String × String)
  carouselShown : Bool
  deriving DecidableEq

/-- Effect of one event on the client state. -/
def applyEvent (st : ChatState) : Event → ChatState
  | .userMessage t _ => { st with transcript := st.transcript ++ [("user", t)] }
  | .botMessage t => { st with transcript := st.transcript ++ [("bot", t)] }
  | .showTyping => { st with typingCount := st.typingCount + 1 }
  | .removeTyping => { st with typingCount := st.typingCount - 1 }
  | .request _ _ _ _ => st
  | .consoleError => st
  | .logOrder _ => st
  | .renderCarousel _ => { st with carouselShown := true }
  | .hideCarousel => { st with carouselShown := false }
  | .setInput t => { st with userInput := t }
  | .setAttachment f => { st with currentAttachment := f }
  | .setFileInput t => { st with fileInputValue := t }
  | .hidePreviews => { st with previewShown := false, filePreviewContainerShown := false }

/-- Run a trace of events over a state. -/
def applyEvents (st : ChatState) (tr : List Event) : ChatState := tr.foldl applyEvent st

/-- The branches of `handleResponseData` below the `products` check:
`else if (data.product) ... else if (data.order) ... else hide`. -/
def respondBelowProducts : Option Product → Option OrderRef → Event
  | some p, _ => .renderCarousel [p]
  | none, some o => .logOrder o
  | none, none => .hideCarousel

/-- `handleResponseData(data)` from `chat.js`: `data.products` (an array is
always truthy; the length check does the work) wins, then `data.product`,
then `data.order` (logged only), else the carousel is hidden. -/
def handleResponseData (d : ResponseData) : Event :=
  match d.products with
  | some ps =>
      if 0 < ps.length then .renderCarousel ps
      else respondBelowProducts d.product d.order
  | none => respondBelowProducts d.product d.order

/-- The fixed apology of the plain-text failure path. -/
def plainErrorMessage : String := "Sorry, I encountered an error. Please try again."

/-- The fixed apology of the attachment failure path. -/
def fileErrorMessage : String := "Sorry, I encountered an error processing your file. Please try again."

/-- `"I'm sending an image."` (built around an explicit apostrophe). -/
def defaultImageMessage : String := "I" ++ ⟨[aposChar]⟩ ++ "m sending an image."

/-- Settlement events of the plain-text `fetch` chain: on success remove
the indicator, append the linkified bot message, and dispatch `data` if
present; on rejection log, remove the indicator, and apologize. -/
def respondEventsPlain : Settlement → List Event
  | .success r =>
      [.removeTyping, .botMessage (formatMessageWithLinks r.message)] ++
        (match r.data with
         | some d => [handleResponseData d]
         | none => [])
  | .failure => [.consoleError, .removeTyping, .botMessage plainErrorMessage]

/-- Settlement events of the `chat-with-file` `fetch` chain (the success
message is appended without linkification). -/
def respondEventsFile : Settlement → List Event
  | .success r =>
      [.removeTyping, .botMessage r.message] ++
        (match r.data with
         | some d => [handleResponseData d]
         | none => [])
  | .failure => [.consoleError, .removeTyping, .botMessage fileErrorMessage]

/-- `sendFileToBackend(message, file)`: typing indicator, multipart request
to `/api/chat-with-file`, then the settlement events. -/
def sendFileToBackend (sid message : String) (file : Option UploadFile) (settle : Settlement) : List Event :=
  [.showTyping, .request "/api/chat-with-file" message sid file] ++ respondEventsFile settle

/-- `removeAttachment()`: clear the attachment slot, reset the file input,
hide both preview containers, clear the draft input. -/
def removeAttachmentEvents : List Event :=
  [.setAttachment none, .setFileInput "", .hidePreviews, .setInput ""]

/-- `sendMessageWithAttachment()` from `chat.js`.  The synchronous tail
(`userInput.value = ''; removeAttachment()`) runs before the `FileReader`
`onload` callback does, so when the callback calls
`sendFileToBackend(message, currentAttachment)` the global attachment slot
has already been nulled: the request carries no file payload. -/
def sendMessageWithAttachment (sid : String) (st : ChatState) (settle : Settlement) : List Event :=
  match st.currentAttachment with
  | none => []
  | some _ =>
      let message := if jsTrim st.userInput = "" then defaultImageMessage else jsTrim st.userInput
      [.setInput ""] ++ removeAttachmentEvents ++
        [.userMessage message true] ++ sendFileToBackend sid message none settle

/-- `sendMessage(e)` from `chat.js`: with a staged attachment, delegate to
`sendMessageWithAttachment`; otherwise a blank (trimmed-empty) draft is a
no-op, and a nonblank draft is appended, the input cleared, the typing
indicator shown, and the plain request sent, followed by the settlement
events. -/
def sendMessage (sid : String) (st : ChatState) (settle : Settlement) : List Event :=
  let message := jsTrim st.userInput
  match st.currentAttachment with
  | some _ => sendMessageWithAttachment sid st settle
  | none =>
      if message = "" then []
      else
        [.userMessage message false, .setInput "", .showTyping,
          .request "/api/chat" message sid none] ++ respondEventsPlain settle

/-- `file.name.replace(/\.[^/.]+$/, '')`: drop a final dot-extension that
contains no slash or further dot. -/
def stripExtension (cs : List Char) : List Char :=
  let revd := cs.reverse
  let ext := revd.takeWhile fun c => !(c == '.' || c == '/')
  match revd.drop ext.length with
  | '.' :: before => if ext.isEmpty then cs else before.reverse
  | _ => cs

/-- `handleFileUpload(event)` from `chat.js` on `event.target.files`,
returning the new state and any `alert` notices.  A non-image MIME type
alerts and resets the file input only; an image is staged, previewed (the
`FileReader` preview callback completes before anything else observes the
state), and a draft message naming the file is placed in the input. -/
def handleFileUpload (st : ChatState) (files : List UploadFile) : ChatState × List String :=
  match files.head? with
  | none => (st, [])
  | some file =>
      if !startsSeq (String.data "image/") file.mimeType.data then
        ({ st with fileInputValue := "" }, ["Only image files are supported at this time."])
      else
        ({ st with
            currentAttachment := some file
            previewShown := true
            filePreviewContainerShown := true
            userInput := "I" ++ ⟨[aposChar]⟩ ++ "m sending an image of " ++ ⟨stripExtension file.name.data⟩ ++ "." },
          [])

/-- Events that are outbound requests. -/
def isRequestEv : Event → Bool
  | .request _ _ _ _ => true
  | _ => false

/-- Events that show the typing indicator. -/
def isShowTypingEv : Event → Bool
  | .showTyping => true
  | _ => false

/-- Events that remove the typing indicator. -/
def isRemoveTypingEv : Event → Bool
  | .removeTyping => true
  | _ => false

/-- Number of events satisfying `p`. -/
def countEv (p : Event → Bool) (tr : List Event) : ℕ := (tr.filter p).length

/-- The bot-message texts of a trace, in order. -/
def botTexts (tr : List Event) : List String :=
  tr.filterMap fun e =>
    match e with
    | .botMessage t => some t
    | _ => none

/-! ### Helper lemmas -/

theorem handleResponseData_neutral (d : ResponseData) :
    isRequestEv (handleResponseData d) = false ∧
    isShowTypingEv (handleResponseData d) = false ∧
    isRemoveTypingEv (handleResponseData d) = false := by
  obtain ⟨ps, p, o⟩ := d
  cases ps with
  | none =>
      cases p <;> cases o <;>
        simp [handleResponseData, respondBelowProducts, isRequestEv, isShowTypingEv, isRemoveTypingEv]
  | some l =>
      by_cases hl : 0 < l.length <;>
        cases p <;> cases o <;>
          simp [handleResponseData, respondBelowProducts, hl,
            isRequestEv, isShowTypingEv, isRemoveTypingEv]

/-- A worked product record used to instantiate hypothetical theorems. -/
def sampleProduct : Product :=
  { pid := "p1", name := "Speaker", description := "A compact speaker with long battery life"
    price := JSVal.str "$80", original_price := some (JSVal.str "$100"), in_stock := "In Stock"
    image_url := none, category := some "Audio", model := none, brand := none
    rating := some (Rat.divInt 9 2), warranty := none }

/-- A client state with a nonblank draft and no staged attachment. -/
def demoState : ChatState :=
  { userInput := "Show me headphones", currentAttachment := none, fileInputValue := ""
    previewShown := false, filePreviewContainerShown := false, typingCount := 0
    transcript := [], carouselShown := false }

/-- A client state with a staged image attachment. -/
def demoAttachState : ChatState :=
  { demoState with
    currentAttachment := some ⟨"pic.png", "image/png"⟩
    previewShown := true, filePreviewContainerShown := true }

/-! ### The claims -/

/-- C2: for string/number inputs `extractCurrentPrice` never throws (it is a
total function here), but on a string whose stripped form does not parse it
returns `"NaN"` — not the `"0.00"` the specification states: `parseFloat('')`
is NaN and `NaN.toFixed(2)` is `"NaN"`, so the card would show `$NaN`.  The
function's own `return "0.00"` fallback shows the intended invalid-input
result. -/
theorem C2_invalid_string_gives_NaN :
    extractCurrentPrice (JSVal.str "abc") = "NaN" ∧
    extractCurrentPrice (JSVal.str "abc") ≠ "0.00" :=
  ⟨by decide, by decide⟩

/-- C4: `handleResponseData` resolves exactly one outcome with precedence
populated `products` list, then `product` (as a one-element carousel), then
`order` (logged only — no state change), else hide the carousel; whenever
`products` is populated the `product` and `order` fields are ignored. -/
theorem C4_precedence (d : ResponseData) :
    (∀ ps, d.products = some ps → 0 < ps.length →
        handleResponseData d = Event.renderCarousel ps) ∧
    (∀ ps p o, 0 < ps.length →
        handleResponseData { products := some ps, product := p, order := o } =
          Event.renderCarousel ps) ∧
    ((d.products = none ∨ d.products = some []) →
        (∀ p, d.product = some p → handleResponseData d = Event.renderCarousel [p]) ∧
        (d.product = none →
          (∀ o, d.order = some o → handleResponseData d = Event.logOrder o) ∧
          (d.order = none → handleResponseData d = Event.hideCarousel))) ∧
    (∀ st o, applyEvent st (Event.logOrder o) = st) := by
  obtain ⟨ps, p, o⟩ := d
  refine ⟨?_, ?_, ?_, fun st o => rfl⟩
  · rintro l rfl hl
    simp [handleResponseData, hl]
  · intro l p o hl
    simp [handleResponseData, hl]
  · rintro (rfl | rfl) <;>
      exact ⟨fun q hq => by subst hq; cases o <;> simp [handleResponseData, respondBelowProducts],
        fun hp => ⟨fun q hq => by subst hp; subst hq; simp [handleResponseData, respondBelowProducts],
          fun ho => by subst hp; subst ho; simp [handleResponseData, respondBelowProducts]⟩⟩

theorem C4_precedence_witness :
    handleResponseData
        { products := some [sampleProduct], product := some sampleProduct, order := some ⟨"o1"⟩ } =
      Event.renderCarousel [sampleProduct] :=
  (C4_precedence { products := none, product := none, order := none }).2.1
    [sampleProduct] (some sampleProduct) (some ⟨"o1"⟩) (by decide)

/-- C10: a submit with a trimmed-empty draft and no staged attachment is a
complete no-op: no events at all (no request, no transcript append, no
typing indicator) and the state — the draft field included — is unchanged. -/
theorem C10_blank_noop (sid : String) (st : ChatState) (settle : Settlement)
    (hatt : st.currentAttachment = none) (hblank : jsTrim st.userInput = "") :
    sendMessage sid st settle = [] ∧ applyEvents st (sendMessage sid st settle) = st := by
  have h1 : sendMessage sid st settle = [] := by
    simp [sendMessage, hatt, hblank]
  exact ⟨h1, by rw [h1]; rfl⟩

/-- A client state whose draft trims to the empty string. -/
def blankState : ChatState := { demoState with userInput := "   " }

theorem C10_blank_noop_witness :
    sendMessage "s" blankState Settlement.failure = [] ∧
    applyEvents blankState (sendMessage "s" blankState Settlement.failure) = blankState :=
  C10_blank_noop "s" blankState Settlement.failure rfl (by decide)

/-- C1 counterexample: for `current = -50`, `original = 100` both numeric
values parse, `original > 0` and `current < original`, so the formula branch
runs — but the result 150 is not in 0..100 as the claim states. -/
theorem C1_counterexample :
    toNumericValue (JSVal.num (-50)) = some (-50) ∧
    toNumericValue (JSVal.num 100) = some 100 ∧
    ((0 : ℚ) < 100 ∧ (-50 : ℚ) < 100) ∧
    calculateDiscount (JSVal.num (-50)) (JSVal.num 100) = 150 ∧
    ¬ calculateDiscount (JSVal.num (-50)) (JSVal.num 100) ≤ 100 :=
  ⟨rfl, rfl, by decide, by decide, by decide⟩

/-- C1 (amended): for every pair of number-or-string inputs,
`calculateDiscount` returns 0 unless both numeric values parse with
`original > 0` and `current < original`; in that case it returns
`Math.round((1 - current/original) * 100)`, an integer that is at least 0
and — whenever the numeric value of `current` is nonnegative — at most
100; and `discountPercent(80, 100) = 20`. -/
theorem C1_discount (cp op : JSVal) :
    (¬ (∃ c o, toNumericValue cp = some c ∧ toNumericValue op = some o ∧ 0 < o ∧ c < o) →
        calculateDiscount cp op = 0) ∧
    (∀ c o, toNumericValue cp = some c → toNumericValue op = some o → 0 < o → c < o →
        calculateDiscount cp op = ⌊(1 - c / o) * 100 + 1 / 2⌋ ∧
        0 ≤ calculateDiscount cp op ∧
        (0 ≤ c → calculateDiscount cp op ≤ 100)) ∧
    calculateDiscount (JSVal.num 80) (JSVal.num 100) = 20 := by
  refine ⟨?_, ?_, by decide⟩
  · intro hno
    rcases h1 : toNumericValue cp with _ | c
    · simp [calculateDiscount, h1]
    · rcases h2 : toNumericValue op with _ | o
      · simp [calculateDiscount, h1, h2]
      · simp only [calculateDiscount, h1, h2]
        rw [if_neg]
        rintro ⟨ho, hco⟩
        exact hno ⟨c, o, h1, h2, ho, hco⟩
  · intro c o h1 h2 ho hco
    have heq := calculateDiscount_formula cp op c o h1 h2 ho hco
    have hlt : c / o < 1 := (div_lt_one ho).mpr hco
    refine ⟨heq, ?_, ?_⟩
    · rw [heq]
      apply Int.le_floor.mpr
      push_cast
      linarith
    · intro hc
      rw [heq]
      have hnn : 0 ≤ c / o := div_nonneg hc (le_of_lt ho)
      have hfl : ⌊(1 - c / o) * 100 + 1 / 2⌋ < 101 := by
        apply Int.floor_lt.mpr
        push_cast
        linarith
      omega

theorem C1_discount_witness :
    calculateDiscount (JSVal.str "$80") (JSVal.str "$100") = ⌊(1 - (80 : ℚ) / 100) * 100 + 1 / 2⌋ ∧
    0 ≤ calculateDiscount (JSVal.str "$80") (JSVal.str "$100") ∧
    calculateDiscount (JSVal.str "$80") (JSVal.str "$100") ≤ 100 :=
  have h := (C1_discount (JSVal.str "$80") (JSVal.str "$100")).2.1 80 100 (by decide) (by decide)
    (by decide) (by decide)
  ⟨h.1, h.2.1, h.2.2 (by decide)⟩

/-- C3 counterexample: `original_price` present (the number 0) and different
from `price`, yet the emitted view is the plain badge — the sale branch
tests truthiness (`product.original_price && ...`), not presence. -/
theorem C3_counterexample :
    (some (JSVal.num 0)).isSome = true ∧
    JSVal.num 0 ≠ JSVal.num 80 ∧
    formatPriceDisplay (JSVal.num 80) (some (JSVal.num 0)) = PriceView.plain (JSVal.num 80) :=
  ⟨rfl, by decide, by decide⟩

/-- C3 (amended): `formatPriceDisplay` emits the discounted view (current
price badge, percent-off via `calculateDiscount`, struck-through original)
exactly when `original_price` is present with a truthy value (nonzero
number / nonempty string) that differs from `price`; otherwise it emits the
plain badge carrying the raw `price` field verbatim.  A product with price
`"$80"` and original price `"$100"` yields percent-off 20 and a
struck-through `"$100"`. -/
theorem C3_priceView (price : JSVal) (op : Option JSVal) :
    (∀ v, op = some v → jsTruthy v = true → v ≠ price →
        formatPriceDisplay price op =
          PriceView.discounted price (calculateDiscount price v) (strikeoutText v)) ∧
    ((∀ v, op = some v → jsTruthy v = false ∨ v = price) →
        formatPriceDisplay price op = PriceView.plain price) ∧
    formatPriceDisplay (JSVal.str "$80") (some (JSVal.str "$100")) =
      PriceView.discounted (JSVal.str "$80") 20 "$100" := by
  refine ⟨?_, ?_, by decide⟩
  · rintro v rfl hv hne
    simp [formatPriceDisplay, hv, hne]
  · intro hall
    cases op with
    | none => rfl
    | some v =>
        rcases hall v rfl with h | h
        · simp [formatPriceDisplay, h]
        · simp [formatPriceDisplay, h]

theorem C3_priceView_witness :
    formatPriceDisplay (JSVal.str "$300") (some (JSVal.str "$400")) =
      PriceView.discounted (JSVal.str "$300")
        (calculateDiscount (JSVal.str "$300") (JSVal.str "$400"))
        (strikeoutText (JSVal.str "$400")) :=
  (C3_priceView (JSVal.str "$300") (some (JSVal.str "$400"))).1 _ rfl (by decide) (by decide)

/-- C8 counterexample: staging a non-image while an image is already staged
alerts and leaves the previously staged attachment and its preview in
place — the `PendingAttachment` slot is *not* unset for every prior state. -/
theorem C8_counterexample :
    (handleFileUpload demoAttachState [⟨"doc.pdf", "application/pdf"⟩]).2 =
      ["Only image files are supported at this time."] ∧
    (handleFileUpload demoAttachState [⟨"doc.pdf", "application/pdf"⟩]).1.currentAttachment =
      some ⟨"pic.png", "image/png"⟩ ∧
    (handleFileUpload demoAttachState [⟨"doc.pdf", "application/pdf"⟩]).1.previewShown = true :=
  ⟨by decide, by decide, by decide⟩

/-- C8 (amended): staging a file whose MIME type is not an image type
produces the synchronous alert and causes no state change apart from
resetting the file-input element: attachment slot and preview are exactly
as before; in particular if nothing was staged the slot stays unset and no
preview is shown. -/
theorem C8_reject (st : ChatState) (file : UploadFile) (rest : List UploadFile)
    (h : startsSeq (String.data "image/") file.mimeType.data = false) :
    handleFileUpload st (file :: rest) =
      ({ st with fileInputValue := "" }, ["Only image files are supported at this time."]) ∧
    (handleFileUpload st (file :: rest)).1.currentAttachment = st.currentAttachment ∧
    (handleFileUpload st (file :: rest)).1.previewShown = st.previewShown ∧
    (st.currentAttachment = none →
        (handleFileUpload st (file :: rest)).1.currentAttachment = none) ∧
    (st.previewShown = false →
        (handleFileUpload st (file :: rest)).1.previewShown = false) := by
  have hmain : handleFileUpload st (file :: rest) =
      ({ st with fileInputValue := "" }, ["Only image files are supported at this time."]) := by
    simp [handleFileUpload, h]
  exact ⟨hmain, by rw [hmain], by rw [hmain],
    fun hn => by rw [hmain]; exact hn, fun hp => by rw [hmain]; exact hp⟩

theorem C8_reject_witness :
    handleFileUpload demoState [⟨"notes.txt", "text/plain"⟩] =
      ({ demoState with fileInputValue := "" }, ["Only image files are supported at this time."]) :=
  (C8_reject demoState ⟨"notes.txt", "text/plain"⟩ [] (by decide)).1

/-- C5: every submit that initiates a send (staged attachment or nonblank
draft) issues exactly one outbound request; exactly one typing indicator is
shown, strictly before the request, and exactly one removal happens,
strictly after the request, at settlement — on success and failure alike
(so the indicator is up for the whole in-flight window, and is removed
neither zero times nor twice).  A plain-text send goes to `/api/chat` with
the trimmed draft and the session token. -/
theorem C5_typing (sid : String) (st : ChatState) (settle : Settlement)
    (h : st.currentAttachment ≠ none ∨ jsTrim st.userInput ≠ "") :
    countEv isRequestEv (sendMessage sid st settle) = 1 ∧
    countEv isShowTypingEv (sendMessage sid st settle) = 1 ∧
    countEv isRemoveTypingEv (sendMessage sid st settle) = 1 ∧
    List.findIdx isShowTypingEv (sendMessage sid st settle) <
      List.findIdx isRequestEv (sendMessage sid st settle) ∧
    List.findIdx isRequestEv (sendMessage sid st settle) <
      List.findIdx isRemoveTypingEv (sendMessage sid st settle) ∧
    (st.currentAttachment = none →
        Event.request "/api/chat" (jsTrim st.userInput) sid none ∈ sendMessage sid st settle) := by
  rcases hatt : st.currentAttachment with _ | f
  · have hmsg : jsTrim st.userInput ≠ "" := by
      rcases h with h | h
      · exact absurd hatt h
      · exact h
    cases settle with
    | failure =>
        simp [sendMessage, hatt, hmsg, countEv, respondEventsPlain,
          isRequestEv, isShowTypingEv, isRemoveTypingEv, List.findIdx_cons]
    | success r =>
        rcases hd : r.data with _ | d
        · simp [sendMessage, hatt, hmsg, countEv, respondEventsPlain, hd,
            isRequestEv, isShowTypingEv, isRemoveTypingEv, List.findIdx_cons]
        · have hn := handleResponseData_neutral d
          simp [sendMessage, hatt, hmsg, countEv, respondEventsPlain, hd,
            isRequestEv, isShowTypingEv, isRemoveTypingEv, List.findIdx_cons,
            hn.1, hn.2.1, hn.2.2]
          exact ⟨hn.1, hn.2.1, hn.2.2⟩
  · cases settle with
    | failure =>
        simp [sendMessage, sendMessageWithAttachment, hatt, sendFileToBackend,
          removeAttachmentEvents, respondEventsFile, countEv,
          isRequestEv, isShowTypingEv, isRemoveTypingEv, List.findIdx_cons]
    | success r =>
        rcases hd : r.data with _ | d
        · simp [sendMessage, sendMessageWithAttachment, hatt, sendFileToBackend,
            removeAttachmentEvents, respondEventsFile, hd, countEv,
            isRequestEv, isShowTypingEv, isRemoveTypingEv, List.findIdx_cons]
        · have hn := handleResponseData_neutral d
          simp [sendMessage, sendMessageWithAttachment, hatt, sendFileToBackend,
            removeAttachmentEvents, respondEventsFile, hd, countEv,
            isRequestEv, isShowTypingEv, isRemoveTypingEv, List.findIdx_cons,
            hn.1, hn.2.1, hn.2.2]
          exact ⟨hn.1, hn.2.1, hn.2.2⟩

theorem C5_typing_witness :
    countEv isRequestEv (sendMessage "s" demoState Settlement.failure) = 1 ∧
    countEv isShowTypingEv (sendMessage "s" demoState Settlement.failure) = 1 ∧
    countEv isRemoveTypingEv (sendMessage "s" demoState Settlement.failure) = 1 :=
  have h := C5_typing "s" demoState Settlement.failure (Or.inr (by decide))
  ⟨h.1, h.2.1, h.2.2.1⟩

/-- C6 counterexample: the two failure paths do not share one fixed apology
string — the attachment path appends a different fixed text than the
plain-text path. -/
theorem C6_counterexample :
    botTexts (sendMessage "s" demoState Settlement.failure) = [plainErrorMessage] ∧
    botTexts (sendMessage "s" demoAttachState Settlement.failure) = [fileErrorMessage] ∧
    plainErrorMessage ≠ fileErrorMessage :=
  ⟨by decide, by decide, by decide⟩

/-- C6 (amended): every failed send surfaces exactly one fixed apology bot
message — `plainErrorMessage` on the plain-text path and the different
fixed string `fileErrorMessage` on the attachment path — removes the
typing indicator exactly once, and leaves the session usable: the
typing-indicator count returns to its pre-submit value and no attachment
remains staged. -/
theorem C6_failure (sid : String) (st : ChatState) :
    (st.currentAttachment = none → jsTrim st.userInput ≠ "" →
        botTexts (sendMessage sid st Settlement.failure) = [plainErrorMessage] ∧
        countEv isRemoveTypingEv (sendMessage sid st Settlement.failure) = 1 ∧
        (applyEvents st (sendMessage sid st Settlement.failure)).typingCount = st.typingCount ∧
        (applyEvents st (sendMessage sid st Settlement.failure)).currentAttachment = none) ∧
    (∀ f, st.currentAttachment = some f →
        botTexts (sendMessage sid st Settlement.failure) = [fileErrorMessage] ∧
        countEv isRemoveTypingEv (sendMessage sid st Settlement.failure) = 1 ∧
        (applyEvents st (sendMessage sid st Settlement.failure)).typingCount = st.typingCount ∧
        (applyEvents st (sendMessage sid st Settlement.failure)).currentAttachment = none) := by
  constructor
  · intro hatt hmsg
    simp [sendMessage, hatt, hmsg, respondEventsPlain, botTexts, countEv,
      isRemoveTypingEv, applyEvents, applyEvent]
  · intro f hatt
    simp [sendMessage, sendMessageWithAttachment, hatt, sendFileToBackend,
      removeAttachmentEvents, respondEventsFile, botTexts, countEv,
      isRemoveTypingEv, applyEvents, applyEvent]

theorem C6_failure_witness :
    botTexts (sendMessage "s" demoAttachState Settlement.failure) = [fileErrorMessage] ∧
    (applyEvents demoAttachState
        (sendMessage "s" demoAttachState Settlement.failure)).currentAttachment = none :=
  have h := (C6_failure "s" demoAttachState).2 ⟨"pic.png", "image/png"⟩ rfl
  ⟨h.1, h.2.2.2⟩

/-- A product whose rating is present with value 0 (inside the data-model
range 0..5), plus a category. -/
def zeroRatedProduct : Product :=
  { pid := "p2", name := "Cam", description := "Tiny camera", price := JSVal.str "$5"
    original_price := none, in_stock := "In Stock", image_url := none
    category := some "Photo", model := none, brand := none
    rating := some 0, warranty := none }

/-- C9 counterexample: rating is present and lies in 0..5, yet the derived
detail lines contain no rating line — `if (product.rating)` is false at 0,
so a present field is dropped, contradicting "exactly those fields that
are present". -/
theorem C9_counterexample :
    zeroRatedProduct.rating = some 0 ∧
    ((0 : ℚ) ≤ 0 ∧ (0 : ℚ) ≤ 5) ∧
    (presentProduct zeroRatedProduct).detailLines = [DetailLine.category "Photo"] :=
  ⟨rfl, by decide, by decide⟩

/-- C9 (amended): for a product whose rating (if present) lies in 0..5, the
detail lines are exactly the *truthy* fields (nonempty strings, nonzero
rating) in the fixed order category, model, brand, rating, warranty, never
reordered; a present nonzero rating yields a 5-glyph star line with
`Math.floor(rating)` filled glyphs; and the description is truncated to its
first 100 characters with an ellipsis appended exactly when it is longer
than 100 characters. -/
theorem C9_details (p : Product)
    (hr : ∀ r, p.rating = some r → 0 ≤ r ∧ r ≤ 5) :
    (presentProduct p).detailLines =
      (match p.category with
        | some c => if c = "" then [] else [DetailLine.category c]
        | none => [])
      ++ (match p.model with
        | some m => if m = "" then [] else [DetailLine.model m]
        | none => [])
      ++ (match p.brand with
        | some b => if b = "" then [] else [DetailLine.brand b]
        | none => [])
      ++ (match p.rating with
        | some r => if r = 0 then [] else [DetailLine.rating (starString r) r]
        | none => [])
      ++ (match p.warranty with
        | some w => if w = "" then [] else [DetailLine.warranty w]
        | none => []) ∧
    (∀ r, p.rating = some r → r ≠ 0 →
        DetailLine.rating (starString r) r ∈ (presentProduct p).detailLines ∧
        (starString r).data.count '★' = (Rat.floor r).toNat ∧
        (starString r).data.length = 5) ∧
    (p.description.length ≤ 100 →
        (presentProduct p).truncatedDescription = p.description) ∧
    (100 < p.description.length →
        (presentProduct p).truncatedDescription = ⟨p.description.data.take 100⟩ ++ "...") := by
  refine ⟨rfl, ?_, ?_, ?_⟩
  · intro r hrat hr0
    obtain ⟨hr5a, hr5b⟩ := hr r hrat
    have hfl : Rat.floor r ≤ 5 := by
      rw [ratFloor_eq_intFloor]
      calc ⌊r⌋ ≤ ⌊(5 : ℚ)⌋ := Int.floor_le_floor hr5b
        _ = 5 := by norm_num
    refine ⟨?_, ?_, ?_⟩
    · simp [presentProduct, getProductDetails, hrat, hr0]
    · simp [starString, List.count_append, List.count_replicate_self, List.count_replicate]
    · simp [starString]
      omega
  · intro hlen
    have h1 : p.description.data.take 100 = p.description.data :=
      List.take_of_length_le hlen
    simp [presentProduct, truncateDescription, Nat.not_lt.mpr hlen, h1]
  · intro hlen
    simp [presentProduct, truncateDescription, hlen]

theorem C9_details_witness :
    DetailLine.rating (starString (Rat.divInt 9 2)) (Rat.divInt 9 2) ∈
      (presentProduct sampleProduct).detailLines ∧
    (starString (Rat.divInt 9 2)).data.count '★' = (Rat.floor (Rat.divInt 9 2)).toNat ∧
    (starString (Rat.divInt 9 2)).data.length = 5 ∧
    (presentProduct sampleProduct).truncatedDescription = sampleProduct.description :=
  have hhyp : ∀ r, sampleProduct.rating = some r → 0 ≤ r ∧ r ≤ 5 := by
    intro r hr
    rw [show sampleProduct.rating = some (Rat.divInt 9 2) from rfl] at hr
    injection hr with h
    subst h
    exact ⟨by decide, by decide⟩
  have h := (C9_details sampleProduct hhyp).2.1 (Rat.divInt 9 2) rfl (by decide)
  have ht := (C9_details sampleProduct hhyp).2.2.1 (by decide)
  ⟨h.1, h.2.1, h.2.2, ht⟩

set_option maxRecDepth 10000 in
/-- C7: the linkifier is *not* idempotent, even on inputs whose quotes are
balanced: on `He said "nice phone" yesterday.` (exactly two quote
characters, a matched pair) the first application wraps `nice phone` in an
anchor, and the second application's quote pass pairs the quotes of the
inserted markup's own attributes, finds the span `>nice phone</a>` between
the `class` attribute's closing quote and the original closing quote,
sees the keyword `phone`, and wraps it again — so twice ≠ once.  The
specification itself flags this double-wrapping as a known fragility the
reimplementation must fix, so the claim records intent the code violates. -/
theorem C7_not_idempotent :
    ((String.data "He said \"nice phone\" yesterday.").filter isQuoteChar).length = 2 ∧
    formatMessageWithLinks (formatMessageWithLinks "He said \"nice phone\" yesterday.") ≠
      formatMessageWithLinks "He said \"nice phone\" yesterday." :=
  ⟨by decide, by decide⟩
